import Mathlib

/-!
Verification of the two core subsystems of the content-management backend:
the fluent SQL query builder/executor (`utils/queryBuilder.js`), the
connection guard (`config/db.js`), and the convention-driven route composer
(`routeLoader.js`).  Each JavaScript function is shallowly embedded as an
executable Lean definition; theorems below settle the specification claims
against these definitions.
-/

namespace DbWeb

/--
A JavaScript runtime value as it appears in query parameters and result
rows.  `vNumOfString s` stands for the JS number `Number(s)` obtained by
string-to-number coercion; it is kept symbolic because no claim depends on
the numeric identity of a coerced float, only on which value was pushed.
-/
inductive Value
  | vStr (s : String)
  | vInt (n : Int)
  | vNumOfString (s : String)
  | vNull
deriving DecidableEq, Repr

/--
An error value thrown or rejected in the JS code: `plain` models a bare
`new Error(message)`, `dbErr` models the structured mysql driver error
object carrying a `code` and a `message`.
-/
inductive JsError
  | plain (message : String)
  | dbErr (code : String) (message : String)
deriving DecidableEq, Repr

/-- A result row: a JS record, i.e. an association list of column name to value. -/
abbrev Row := List (String × Value)

/-- The mysql driver result for an INSERT statement (`result.insertId`). -/
structure InsertInfo where
  insertId : Int
deriving DecidableEq, Repr

/--
`joinSep sep l` models JavaScript `Array.prototype.join(sep)`:
empty array gives `""`, a singleton gives its element, otherwise the
elements interleaved with `sep`.
-/
def joinSep (sep : String) : List String → String
  | [] => ""
  | s :: rest =>
    match rest with
    | [] => s
    | _ :: _ => s ++ sep ++ joinSep sep rest

/-- Number of positional `?` placeholders occurring in a SQL string. -/
def countQ (s : String) : Nat := s.data.count '?'

/--
`jsToUpper` models JavaScript `String.prototype.toUpperCase()` on the
ASCII strings appearing in this code base (sort directions).
-/
def jsToUpper (s : String) : String := ⟨s.data.map Char.toUpper⟩

/-- Concatenation of a list of strings, each one preceded by a single space. -/
def catSp (l : List String) : String :=
  l.foldr (fun s acc => " " ++ s ++ acc) ""

/--
The mutable state of one `QueryBuilder` instance
(`utils/queryBuilder.js`, constructor lines 5-15).  `insertData = none`
models the `insertData` property being absent (never assigned).
-/
structure QueryBuilder where
  table : String
  selectFields : String
  whereConditions : List String
  whereParams : List Value
  orderByField : Option String
  orderDirection : String
  limitCount : Option Int
  joinClauses : List String
  groupByFields : List String
  insertData : Option (List (String × Value))
deriving DecidableEq, Repr

/-- `new QueryBuilder(table)`: the fresh builder produced by `db.table(table)`. -/
def mkBuilder (table : String) : QueryBuilder :=
  { table := table
    selectFields := "*"
    whereConditions := []
    whereParams := []
    orderByField := none
    orderDirection := "ASC"
    limitCount := none
    joinClauses := []
    groupByFields := []
    insertData := none }

/-- A JS argument that is either a single string or an array of strings. -/
abbrev StrOrList := Sum String (List String)

namespace QueryBuilder

/-- `select(fields)`: `Array.isArray(fields) ? fields.join(', ') : fields`. -/
def select (b : QueryBuilder) (fields : StrOrList) : QueryBuilder :=
  { b with selectFields := match fields with
      | .inl s => s
      | .inr l => joinSep ", " l }

/-- `insert(data)`: stages the column-to-value payload for `insertAndGet`. -/
def insert (b : QueryBuilder) (data : List (String × Value)) : QueryBuilder :=
  { b with insertData := some data }

/-- `whereField(field, value)`: pushes the fragment `field = ?` and the value. -/
def whereField (b : QueryBuilder) (field : String) (value : Value) : QueryBuilder :=
  { b with whereConditions := b.whereConditions ++ [field ++ " = ?"]
           whereParams := b.whereParams ++ [value] }

/-- `whereRaw(sql, params)`: pushes the raw fragment and appends its params. -/
def whereRaw (b : QueryBuilder) (sql : String) (params : List Value) : QueryBuilder :=
  { b with whereConditions := b.whereConditions ++ [sql]
           whereParams := b.whereParams ++ params }

/-- `orderBy(field, direction)`: sets the sort key; the direction is upper-cased. -/
def orderBy (b : QueryBuilder) (field : String) (direction : String) : QueryBuilder :=
  { b with orderByField := some field
           orderDirection := jsToUpper direction }

/-- `limit(count)`: sets the row cap. -/
def limit (b : QueryBuilder) (count : Int) : QueryBuilder :=
  { b with limitCount := some count }

/-- `join(table, condition)`: appends an inner join clause. -/
def join (b : QueryBuilder) (table condition : String) : QueryBuilder :=
  { b with joinClauses := b.joinClauses ++ ["JOIN " ++ table ++ " ON " ++ condition] }

/-- `leftJoin(table, condition)`: appends a left join clause. -/
def leftJoin (b : QueryBuilder) (table condition : String) : QueryBuilder :=
  { b with joinClauses := b.joinClauses ++ ["LEFT JOIN " ++ table ++ " ON " ++ condition] }

/-- `groupBy(fields)`: `Array.isArray(fields) ? fields : [fields]`. -/
def groupBy (b : QueryBuilder) (fields : StrOrList) : QueryBuilder :=
  { b with groupByFields := match fields with
      | .inl s => [s]
      | .inr l => l }

/--
The WHERE cell of the clause array built inside `get()` (line 97):
`this.whereConditions.length && ...` is the falsy number `0` (modelled
`none`) for an empty list, otherwise the truthy clause string.
-/
def whereOpt (b : QueryBuilder) : Option String :=
  if b.whereConditions.isEmpty then none
  else some ("WHERE " ++ joinSep " AND " b.whereConditions)

/-- The GROUP BY cell of the clause array (line 98). -/
def groupOpt (b : QueryBuilder) : Option String :=
  if b.groupByFields.isEmpty then none
  else some ("GROUP BY " ++ joinSep ", " b.groupByFields)

/--
The ORDER BY cell (line 99): `this.orderByField && ...` is falsy both
when the field was never set (`null`) and when it is the empty string.
-/
def orderOpt (b : QueryBuilder) : Option String :=
  match b.orderByField with
  | some f => if f = "" then none
              else some ("ORDER BY " ++ f ++ " " ++ b.orderDirection)
  | none => none

/-- The LIMIT cell (line 100): `this.limitCount != null && ...` admits `0`. -/
def limitOpt (b : QueryBuilder) : Option String :=
  match b.limitCount with
  | some n => some ("LIMIT " ++ toString n)
  | none => none

/--
The clause array built inside `get()` (lines 94-101) before
`.filter(Boolean)`.  A `none` entry models a falsy array element; every
`some` entry is a nonempty (truthy) string, so `.filter(Boolean)` keeps
exactly the `some` entries.
-/
def clauseParts (b : QueryBuilder) : List (Option String) :=
  [some ("SELECT " ++ b.selectFields ++ " FROM " ++ b.table)]
  ++ b.joinClauses.map some
  ++ [whereOpt b, groupOpt b, orderOpt b, limitOpt b]

/-- The SQL text compiled by `get()`: the truthy clauses joined by a space. -/
def compileGet (b : QueryBuilder) : String :=
  joinSep " " ((clauseParts b).filterMap id)

end QueryBuilder

/--
Canonical segment forms of the compiled SQL, used to state the fixed
clause order `SELECT .. FROM .. JOIN* .. WHERE .. GROUP BY .. ORDER BY ..
LIMIT`.  Each segment is either empty or begins with a single space
followed by its keyword.
-/
def segJoins (b : QueryBuilder) : String :=
  catSp b.joinClauses

/-- The WHERE segment: empty, or the filter fragments joined with ` AND `. -/
def segWhere (b : QueryBuilder) : String :=
  if b.whereConditions.isEmpty then ""
  else " WHERE " ++ joinSep " AND " b.whereConditions

/-- The GROUP BY segment. -/
def segGroup (b : QueryBuilder) : String :=
  if b.groupByFields.isEmpty then ""
  else " GROUP BY " ++ joinSep ", " b.groupByFields

/-- The ORDER BY segment (omitted for an unset or empty sort field). -/
def segOrder (b : QueryBuilder) : String :=
  match b.orderByField with
  | some f => if f = "" then "" else " ORDER BY " ++ f ++ " " ++ b.orderDirection
  | none => ""

/-- The LIMIT segment. -/
def segLimit (b : QueryBuilder) : String :=
  match b.limitCount with
  | some n => " LIMIT " ++ toString n
  | none => ""

/-! ### Execution model

`config/db.js` exposes `query(sql, params)` returning a promise of the
driver result.  The result shape depends on the statement kind: rows for
a SELECT, an object carrying `insertId` for an INSERT.  The executor is
therefore abstracted as a pair of oracles, one per statement kind.
-/

/-- An executor for row-returning statements: resolves rows or rejects. -/
abbrev Exec := String → List Value → Except JsError (List Row)

/-- An executor for INSERT statements: resolves the driver insert result. -/
abbrev ExecInsert := String → List Value → Except JsError InsertInfo

namespace QueryBuilder

/-- `get()` (lines 93-105): compiles and delegates to `query(sql, this.whereParams)`. -/
def getRun (exec : Exec) (b : QueryBuilder) : Except JsError (List Row) :=
  exec (compileGet b) b.whereParams

/--
`first()` (lines 133-136): `this.limit(1).get()`, then `rows[0] || null`.
A row object is always truthy, so the marker is `none` exactly when the
row list is empty; a rejection of `get()` propagates.
-/
def firstRun (exec : Exec) (b : QueryBuilder) : Except JsError (Option Row) :=
  match getRun exec (b.limit 1) with
  | .ok rows =>
    .ok (match rows with
         | [] => none
         | r :: _ => some r)
  | .error e => .error e

/--
The derived builder constructed inside `count()` (lines 139-143): a fresh
builder on the same table, selecting `COUNT(*) as count`, with the filter
fragments, their parameters and the join clauses copied across.
-/
def countBuilder (b : QueryBuilder) : QueryBuilder :=
  { mkBuilder b.table with
      selectFields := "COUNT(*) as count"
      whereConditions := b.whereConditions
      whereParams := b.whereParams
      joinClauses := b.joinClauses }

/-- A JS-falsy value: `0`, the empty string, or `null` (`undefined` is absent). -/
def isFalsy : Value → Bool
  | .vInt n => n = 0
  | .vStr s => s = ""
  | .vNumOfString _ => false
  | .vNull => true

/--
`count()` (lines 138-147): runs the derived builder's `get()` and returns
`result[0]?.count || 0` — the `count` column of the first row, with any
falsy value (including a missing row or column) replaced by the number 0.
-/
def countRun (exec : Exec) (b : QueryBuilder) : Except JsError Value :=
  match getRun exec (countBuilder b) with
  | .error e => .error e
  | .ok rows =>
    .ok (match rows with
         | [] => Value.vInt 0
         | row :: _ =>
           match row.lookup "count" with
           | none => Value.vInt 0
           | some v => if isFalsy v then Value.vInt 0 else v)

/-- The INSERT statement text compiled by `insertAndGet()` (lines 111-115). -/
def insertSql (table : String) (data : List (String × Value)) : String :=
  "INSERT INTO " ++ table ++ " (" ++ joinSep ", " (data.map Prod.fst) ++ ") VALUES ("
    ++ joinSep ", " (data.map (fun _ => "?")) ++ ")"

/-- Rendering of a parameter inside the diagnostic message `Params: ${values}`. -/
def renderValue : Value → String
  | .vStr s => s
  | .vInt n => toString n
  | .vNumOfString s => s
  | .vNull => "null"

/-- The error enrichment applied in the catch block of `insertAndGet()` (line 128). -/
def enrichInsertError (sql : String) (values : List Value) : JsError → JsError
  | .plain m => .plain ("Query failed: " ++ sql ++ " | Params: "
      ++ joinSep "," (values.map renderValue) ++ " | Error: " ++ m)
  | .dbErr c m => .dbErr c ("Query failed: " ++ sql ++ " | Params: "
      ++ joinSep "," (values.map renderValue) ++ " | Error: " ++ m)

/--
`insertAndGet()` (lines 107-131): throws when no payload was staged,
otherwise executes the compiled INSERT and returns `{ id: result.insertId }`;
an execution failure is rethrown with the diagnostic message prepended.
-/
def insertAndGetRun (execI : ExecInsert) (b : QueryBuilder) : Except JsError Row :=
  match b.insertData with
  | none => .error (.plain "No data provided to insert")
  | some data =>
    match execI (insertSql b.table data) (data.map Prod.snd) with
    | .ok result => .ok [("id", Value.vInt result.insertId)]
    | .error e => .error (enrichInsertError (insertSql b.table data) (data.map Prod.snd) e)

end QueryBuilder

/-! ### Builder chain calls

The chainable (non-terminal) methods quantified over by the clause-order
and placeholder claims, as an explicit call alphabet, so that a theorem
can range over every invocation sequence.
-/

/-- One chainable builder method invocation. -/
inductive Call
  | select (fields : StrOrList)
  | filterEquals (field : String) (value : Value)
  | filterRaw (sql : String) (params : List Value)
  | join (table condition : String)
  | leftJoin (table condition : String)
  | groupBy (fields : StrOrList)
  | orderBy (field direction : String)
  | limit (n : Int)

/-- Dispatch of one call to the corresponding builder method. -/
def applyCall (b : QueryBuilder) : Call → QueryBuilder
  | .select fs => b.select fs
  | .filterEquals f v => b.whereField f v
  | .filterRaw s ps => b.whereRaw s ps
  | .join t c => b.join t c
  | .leftJoin t c => b.leftJoin t c
  | .groupBy fs => b.groupBy fs
  | .orderBy f d => b.orderBy f d
  | .limit n => b.limit n

/-- A whole chain, applied left to right. -/
def applyCalls (b : QueryBuilder) (cs : List Call) : QueryBuilder :=
  cs.foldl applyCall b

/-- The join clause a call appends, if it is a join call. -/
def joinFragsOf : Call → List String
  | .join t c => ["JOIN " ++ t ++ " ON " ++ c]
  | .leftJoin t c => ["LEFT JOIN " ++ t ++ " ON " ++ c]
  | _ => []

/-- The filter fragment a call appends, if it is a filter call. -/
def filterFragsOf : Call → List String
  | .filterEquals f _ => [f ++ " = ?"]
  | .filterRaw s _ => [s]
  | _ => []

/-- The parameters a call pushes, if it is a filter call. -/
def filterParamsOf : Call → List Value
  | .filterEquals _ v => [v]
  | .filterRaw _ ps => ps
  | _ => []

/-- Whether a call is `filterEquals` or `filterRaw`. -/
def Call.isFilter : Call → Bool
  | .filterEquals _ _ => true
  | .filterRaw _ _ => true
  | _ => false

/-- Whether a call is `join` or `leftJoin`. -/
def Call.isJoin : Call → Bool
  | .join _ _ => true
  | .leftJoin _ _ => true
  | _ => false

/-- Whether a call is `groupBy`. -/
def Call.isGroup : Call → Bool
  | .groupBy _ => true
  | _ => false

/-- Whether a call is `orderBy`. -/
def Call.isOrder : Call → Bool
  | .orderBy _ _ => true
  | _ => false

/-- Whether a call is `limit`. -/
def Call.isLimit : Call → Bool
  | .limit _ => true
  | _ => false

/-! ### Filter-only call sequences and placeholder bookkeeping -/

/-- One filter-adding invocation: `whereField` or `whereRaw`. -/
inductive FilterCall
  | filterEquals (field : String) (value : Value)
  | filterRaw (sql : String) (params : List Value)

/-- The fragment the call pushes onto `whereConditions`. -/
def FilterCall.frag : FilterCall → String
  | .filterEquals f _ => f ++ " = ?"
  | .filterRaw s _ => s

/-- The values the call pushes onto `whereParams`. -/
def FilterCall.params : FilterCall → List Value
  | .filterEquals _ v => [v]
  | .filterRaw _ ps => ps

/-- Dispatch of one filter call. -/
def applyFilterCall (b : QueryBuilder) : FilterCall → QueryBuilder
  | .filterEquals f v => b.whereField f v
  | .filterRaw s ps => b.whereRaw s ps

/-- A sequence of filter calls, applied left to right. -/
def applyFilterCalls (b : QueryBuilder) (cs : List FilterCall) : QueryBuilder :=
  cs.foldl applyFilterCall b

/--
Left-to-right binding of positional placeholders: each `?` in the SQL
text is replaced by the rendering of the next unconsumed parameter
(exactly the association the SQL driver performs at execution time).
Text substituted in for a placeholder is not rescanned.
-/
def substChars : List Char → List Value → List Char
  | [], _ => []
  | c :: cs, ps =>
    if c = '?' then
      match ps with
      | [] => c :: substChars cs []
      | p :: ps' => (QueryBuilder.renderValue p).data ++ substChars cs ps'
    else c :: substChars cs ps

/-- `substPlaceholders sql ps`: the SQL text with placeholders bound to `ps` in order. -/
def substPlaceholders (s : String) (ps : List Value) : String :=
  ⟨substChars s.data ps⟩

/-! ### Connection guard (`config/db.js`)

`query(sql, params)` checks `db.state === 'disconnected'` and calls
`ensureConnection()` before issuing the statement on the (possibly new)
handle; the statement's outcome — rows or a rejected driver error —
is returned to the caller unchanged and is never retried.
-/

/-- The liveness state the mysql2 driver exposes as `connection.state`. -/
inductive ConnState
  | connected
  | disconnected
deriving DecidableEq, Repr

/-- The module-level connection handle `db`. -/
structure Conn where
  state : ConnState
deriving DecidableEq, Repr

/--
The environment `query` runs against: `connectOK` is the outcome of the
connection attempt made by `ensureConnection()` (a failed `connect`
leaves the fresh handle disconnected — the error callback only logs),
and `runStmt` is the driver's behaviour for one statement issued on a
handle in the given state.
-/
structure Driver where
  connectOK : Bool
  runStmt : ConnState → String → List Value → Except JsError (List Row)

/--
`ensureConnection()` (lines 16-36): replaces the module handle with a
freshly created connection; the handle is live exactly when the connect
attempt succeeds.
-/
def ensureConnection (d : Driver) : Conn :=
  ⟨if d.connectOK then ConnState.connected else ConnState.disconnected⟩

/-- An observable event of one `query()` call, in order of occurrence. -/
inductive DbEv
  | reconnect
  | issue (sql : String) (params : List Value)
deriving DecidableEq, Repr

/--
`query(sql, params)` (lines 41-63): if the handle reports
`disconnected`, re-establish it synchronously, then issue the statement
on the current handle and hand the driver's outcome — resolved rows or
a rejected structured error — straight back.  Returns the event trace,
the caller-visible result, and the handle left behind.
-/
def queryRun (d : Driver) (c : Conn) (sql : String) (ps : List Value) :
    List DbEv × Except JsError (List Row) × Conn :=
  let step := if c.state = ConnState.disconnected
              then ([DbEv.reconnect], ensureConnection d)
              else ([], c)
  (step.1 ++ [DbEv.issue sql ps], d.runStmt step.2.state sql ps, step.2)

/-! ### Route composer (`routeLoader.js`)

`loadRoutes` processes each controller module: a module exporting a
`routes` map registers its entries explicitly (lines 28-33); otherwise
routes are inferred from the exported functions and the view directory
(lines 34-56).
-/

/-- An opaque JS handler function, identified for the model by a number. -/
structure Handler where
  id : Nat
deriving DecidableEq, Repr

/--
One element of a route-map handler chain as written in a controller:
a string naming an export, a direct function reference, or a falsy
element (`null`/`undefined`).
-/
inductive HItem
  | str (s : String)
  | fn (h : Handler)
  | nul
deriving DecidableEq, Repr

/--
The value of one route-map entry: either a single element or an array of
elements.  `[].concat(handlers)` wraps a non-array value; `.flat()`
flattens one level of array nesting (route maps in this repository nest
at most one level).
-/
inductive HVal
  | one (i : HItem)
  | arr (l : List HItem)
deriving DecidableEq, Repr

/-- The flattened element list `[].concat(handlers).flat()`. -/
def HVal.toList : HVal → List HItem
  | .one i => [i]
  | .arr l => l

/-- A handler chain entry after resolution: a function, or a leftover string. -/
inductive RHandler
  | fn (h : Handler)
  | str (s : String)
deriving DecidableEq, Repr

/-- One registered route: lowercased method, path, ordered handler chain. -/
structure RouteReg where
  method : String
  path : String
  chain : List RHandler
deriving DecidableEq, Repr

/--
Property lookup `controller[name]` over the module's function-valued
exports, e.g. `controller['login']`; `none` models `undefined`.
-/
def lookupFn (s : String) : List (String × Handler) → Option Handler
  | [] => none
  | (k, h) :: rest => if k = s then some h else lookupFn s rest

/--
Resolution of one chain element, `controller[h] || h` followed by
`.filter(Boolean)` (line 31): a string naming an export resolves to that
export; any other truthy element is kept as-is (including a non-empty
string naming no export); falsy elements — `null`, `undefined`, the
empty string — are dropped.
-/
def resolveItem (ex : List (String × Handler)) : HItem → Option RHandler
  | .str s =>
    match lookupFn s ex with
    | some h => some (.fn h)
    | none => if s = "" then none else some (.str s)
  | .fn h => some (.fn h)
  | .nul => none

/-- The resolved handler chain `funs` of one route-map entry. -/
def resolveChain (ex : List (String × Handler)) (v : HVal) : List RHandler :=
  v.toList.filterMap (resolveItem ex)

/--
`splitSpaces` models `String.prototype.split(' ')` with a single-space
separator: every space starts a new (possibly empty) group, and the
result is never the empty array — `''.split(' ')` is `['']`.
-/
def splitSpaces : List Char → List (List Char)
  | [] => [[]]
  | c :: rest =>
    if c = ' ' then [] :: splitSpaces rest
    else
      match splitSpaces rest with
      | [] => [[c]]
      | g :: gs => (c :: g) :: gs

/-- `key.split(' ')` on a route-map key. -/
def splitKey (s : String) : List String :=
  (splitSpaces s.data).map fun cs => ⟨cs⟩

/-- `jsToLower` models `String.prototype.toLowerCase()` on ASCII strings. -/
def jsToLower (s : String) : String := ⟨s.data.map Char.toLower⟩

/--
The HTTP-verb methods the Express `Router` object exposes as functions
and this repository's route maps use; `router[m]` for any other `m`
is `undefined`, so invoking it throws a `TypeError`.
-/
def validVerbs : List String :=
  ["get", "post", "put", "delete", "patch", "head", "options", "all"]

/--
Registration of one route-map entry (lines 29-32):
`const [method = 'get', route] = def.split(' ')` — note `split` never
yields `undefined` elements, so the `'get'` default is dead code and the
first token is always taken as the method — then
`router[method.toLowerCase()](route, ...funs)`.  A method token that is
not a `Router` verb, or a key without a second token (so `route` is
`undefined`), makes registration throw, which aborts `loadRoutes`.
-/
def registerEntry (ex : List (String × Handler)) (key : String) (v : HVal) :
    Except String RouteReg :=
  let parts := splitKey key
  let method := match parts with
    | [] => "get"
    | mth :: _ => mth
  if jsToLower method ∈ validVerbs then
    match parts.get? 1 with
    | some route => .ok ⟨jsToLower method, route, resolveChain ex v⟩
    | none => .error ("TypeError: missing route path in key " ++ key)
  else
    .error ("TypeError: router." ++ jsToLower method ++ " is not a function")

/--
`Object.entries(controller.routes).forEach(...)` (line 29): entries are
registered in declaration order; a throw propagates and aborts startup.
-/
def explicitRoutes (ex : List (String × Handler)) :
    List (String × HVal) → Except String (List RouteReg)
  | [] => .ok []
  | (k, v) :: rest =>
    match registerEntry ex k v with
    | .error e => .error e
    | .ok r =>
      match explicitRoutes ex rest with
      | .error e => .error e
      | .ok rs => .ok (r :: rs)

/-- The method a key actually yields: its first space-token, lowercased. -/
def keyMethod (k : String) : String :=
  match splitKey k with
  | [] => "get"
  | mth :: _ => jsToLower mth

/-- The path a key actually yields: its second space-token. -/
def keyPath (k : String) : String := (splitKey k).getD 1 ""

/-- A key of the shape `"<VERB> <path>"` the code registers successfully. -/
def wellFormedKey (k : String) : Bool :=
  match splitKey k with
  | [mth, _] => decide (jsToLower mth ∈ validVerbs)
  | _ => false

/-- The function exports of the `api-auth` controller used as a test module. -/
def apiAuthExports : List (String × Handler) :=
  [("validateLogin", ⟨0⟩), ("login", ⟨1⟩), ("logout", ⟨2⟩)]

/-! ### Convention-inference mode (`routeLoader.js` lines 34-56) -/

/--
A controller module without an explicit `routes` map, together with the
startup context `loadRoutes` inspects: the module name (`routeName`),
whether its file name carries the `api-` naming convention, its
function-valued exports in enumeration order, and the file names found
in its view directory (`none` when the directory does not exist).
-/
structure ConvController where
  name : String
  isApi : Bool
  fnExports : List (String × Handler)
  viewFiles : Option (List String)
deriving DecidableEq, Repr

/-- A handler registered in convention mode: an export, or a render-only closure. -/
inductive CHandler
  | fn (h : Handler)
  | render (view : String)
deriving DecidableEq, Repr

/-- `endsWithEjs f` checks the `.ejs` suffix on the raw character data. -/
def endsWithEjs (f : String) : Bool :=
  match f.data.reverse with
  | 's' :: 'j' :: 'e' :: '.' :: _ => true
  | _ => false

/--
`path.basename(subRoute, '.ejs')` on a plain file name: strips the
`.ejs` suffix when present, except when the whole name is the suffix.
-/
def stripExt (f : String) : String :=
  if (f != ".ejs") && endsWithEjs f then f.dropRight 4 else f

/--
The `GET /` registration (lines 35-39): the exported `index` function if
present, else a render handler for `<name>/index` if the view directory
holds `index.ejs`, else nothing.
-/
def indexRoutes (m : ConvController) : List (String × CHandler) :=
  match lookupFn "index" m.fnExports with
  | some h => [("/", CHandler.fn h)]
  | none =>
    match m.viewFiles with
    | some files =>
      if "index.ejs" ∈ files then [("/", CHandler.render (m.name ++ "/index"))] else []
    | none => []

/--
The function-derived registrations (lines 42-44): every exported
function except `index` gets `GET /<functionName>`, in enumeration order.
-/
def fnRoutes (m : ConvController) : List (String × CHandler) :=
  (m.fnExports.filter fun p => p.1 != "index").map fun p => ("/" ++ p.1, CHandler.fn p.2)

/--
One step of the view-template loop (lines 51-54): register a render-only
route for the template unless the router already has a route at that
path (`router.stack.find(...)`).
-/
def addViewRoute (name : String) (acc : List (String × CHandler)) (sub : String) :
    List (String × CHandler) :=
  if acc.any fun r => r.1 == "/" ++ sub then acc
  else acc ++ [("/" ++ sub, CHandler.render (name ++ "/" ++ sub))]

/-- The template-derived sub-route names: file names minus `.ejs`, minus `index`. -/
def viewSubs (files : List String) : List String :=
  (files.map stripExt).filter fun s => s != "index"

/--
The full convention-mode route table of one controller (lines 34-56):
index route, then function routes, then — only for non-API modules with
an existing view directory — the deduplicated template routes.
-/
def conventionRoutes (m : ConvController) : List (String × CHandler) :=
  let base := indexRoutes m ++ fnRoutes m
  if m.isApi then base
  else
    match m.viewFiles with
    | none => base
    | some files => (viewSubs files).foldl (addViewRoute m.name) base

/-- Number of registered routes at a given path. -/
def pathCount (p : String) (l : List (String × CHandler)) : Nat :=
  l.countP fun r => r.1 == p

/-! ### `where(fn)`: predicate parsing by stringified-function inspection

`where(conditionFn)` (queryBuilder.js lines 37-58) stringifies the
function and matches it against the regular expression
`m\s*=>\s*m\.([a-zA-Z_][a-zA-Z0-9_]*)\s*={2,3}\s*(.*)` — the matcher
below hand-compiles this pattern; every greedy star in it is
deterministic because the adjacent character classes are disjoint.  The
right-hand capture is trimmed and then classified: quoted string,
numeric string (the JS `isNaN` coercion), or skipped.
-/

/-- A character of the JS `\s` class (the ASCII part used here). -/
def isWsChar (c : Char) : Bool :=
  c = ' ' || c = '\t' || c = '\n' || c = '\r' || c = '\x0b' || c = '\x0c'

/-- A JS line terminator, which `.` in a regex does not match. -/
def isLineTermChar (c : Char) : Bool :=
  c = '\n' || c = '\r' || c = ' ' || c = ' '

/-- First character of the identifier class `[a-zA-Z_]`. -/
def isIdentStartChar (c : Char) : Bool :=
  ('a' ≤ c && c ≤ 'z') || ('A' ≤ c && c ≤ 'Z') || c = '_'

/-- Continuation character of the identifier class `[a-zA-Z0-9_]`. -/
def isIdentChar (c : Char) : Bool :=
  isIdentStartChar c || ('0' ≤ c && c ≤ '9')

/-- Structural `takeWhile` on character lists. -/
def takeWhileCh (p : Char → Bool) : List Char → List Char
  | [] => []
  | c :: rest => if p c then c :: takeWhileCh p rest else []

/-- Structural `dropWhile` on character lists. -/
def dropWhileCh (p : Char → Bool) : List Char → List Char
  | [] => []
  | c :: rest => if p c then dropWhileCh p rest else c :: rest

/--
An anchored match of the `where` pattern at the head of the input,
returning the two captures (field identifier, right-hand side up to the
end of line) on success.
-/

def matchAt (cs : List Char) : Option (List Char × List Char) :=
  match cs with
  | 'm' :: r1 =>
    match dropWhileCh isWsChar r1 with
    | '=' :: '>' :: r3 =>
      match dropWhileCh isWsChar r3 with
      | 'm' :: '.' :: c :: r6 =>
        if isIdentStartChar c then
          let ids := takeWhileCh isIdentChar r6
          let r7 := dropWhileCh isIdentChar r6
          let r8 := dropWhileCh isWsChar r7
          let eqs := takeWhileCh (fun d => d = '=') r8
          let r9 := dropWhileCh (fun d => d = '=') r8
          if eqs.length ≥ 2 then
            let leftover := eqs.drop (min eqs.length 3)
            let r10 := dropWhileCh isWsChar (leftover ++ r9)
            some (c :: ids, takeWhileCh (fun d => !isLineTermChar d) r10)
          else none
        else none
      | _ => none
    | _ => none
  | _ => none

/-- The leftmost match of the `where` pattern, as `String.prototype.match`. -/
def regexFindWhere : List Char → Option (List Char × List Char)
  | [] => none
  | c :: rest =>
    match matchAt (c :: rest) with
    | some r => some r
    | none => regexFindWhere rest

/-- `String.prototype.trim()`: whitespace and line terminators off both ends. -/
def jsTrim (s : String) : String :=
  ⟨((dropWhileCh (fun c => isWsChar c || isLineTermChar c) s.data).reverse
      |> dropWhileCh (fun c => isWsChar c || isLineTermChar c)).reverse⟩

/-- Whether the first character of the string is `c`. -/
def headIs (s : String) (c : Char) : Bool :=
  match s.data with
  | d :: _ => d = c
  | [] => false

/-- Whether the last character of the string is `c`. -/
def lastIs (s : String) (c : Char) : Bool :=
  match s.data.reverse with
  | d :: _ => d = c
  | [] => false

/--
The quoted-literal test of lines 44-45:
`value.startsWith('"') && value.endsWith('"')` or the same with single
quotes (a one-character quote satisfies both ends, as in JS).
-/
def isQuoted (value : String) : Bool :=
  (headIs value '"' && lastIs value '"') || (headIs value '\'' && lastIs value '\'')

/-- A decimal digit. -/
def isDigitCh (c : Char) : Bool := '0' ≤ c && c ≤ '9'

/-- A hexadecimal digit. -/
def isHexCh (c : Char) : Bool :=
  isDigitCh c || ('a' ≤ c && c ≤ 'f') || ('A' ≤ c && c ≤ 'F')

/-- An octal digit. -/
def isOctCh (c : Char) : Bool := '0' ≤ c && c ≤ '7'

/-- A binary digit. -/
def isBinCh (c : Char) : Bool := c = '0' || c = '1'

/-- A nonempty all-digits-of-the-radix tail, as after `0x`, `0o`, `0b`. -/
def radixAll (p : Char → Bool) (cs : List Char) : Bool :=
  !cs.isEmpty && (dropWhileCh p cs).isEmpty

/-- A nonempty run of decimal digits and nothing else. -/
def digitsAll (cs : List Char) : Bool :=
  !cs.isEmpty && (dropWhileCh isDigitCh cs).isEmpty

/-- An optional exponent part closing the literal: empty, or `e[+-]?digits`. -/
def isExpOrEmpty : List Char → Bool
  | [] => true
  | e :: rest =>
    if e = 'e' || e = 'E' then
      match rest with
      | '+' :: r => digitsAll r
      | '-' :: r => digitsAll r
      | r => digitsAll r
    else false

/-- An unsigned decimal literal: `digits[.digits][exp]` or `.digits[exp]`. -/
def isDecimalChars (cs : List Char) : Bool :=
  let intPart := takeWhileCh isDigitCh cs
  let rest := dropWhileCh isDigitCh cs
  match rest with
  | '.' :: rest2 =>
    let frac := takeWhileCh isDigitCh rest2
    let rest3 := dropWhileCh isDigitCh rest2
    if intPart.isEmpty && frac.isEmpty then false else isExpOrEmpty rest3
  | _ => if intPart.isEmpty then false else isExpOrEmpty rest

/-- An unsigned numeric string: `Infinity` or a decimal literal. -/
def unsignedNumeric (cs : List Char) : Bool :=
  if cs = ['I', 'n', 'f', 'i', 'n', 'i', 't', 'y'] then true else isDecimalChars cs

/-- An optionally signed numeric string. -/
def signedNumeric : List Char → Bool
  | '+' :: rest => unsignedNumeric rest
  | '-' :: rest => unsignedNumeric rest
  | cs => unsignedNumeric cs

/--
`!isNaN(value)` (line 47) on the already-trimmed string: whether JS
string-to-number coercion yields a number.  Accepts the empty string
(`Number('') = 0`), signed decimals with optional fraction and exponent,
`Infinity` with optional sign, and unsigned `0x`/`0o`/`0b` literals.
-/
def jsIsNumericString (s : String) : Bool :=
  match s.data with
  | [] => true
  | '0' :: x :: rest =>
    if x = 'x' || x = 'X' then radixAll isHexCh rest
    else if x = 'o' || x = 'O' then radixAll isOctCh rest
    else if x = 'b' || x = 'B' then radixAll isBinCh rest
    else isDecimalChars ('0' :: x :: rest)
  | cs => signedNumeric cs

/--
`where(conditionFn)` (lines 37-58), taking the stringified function
source as input: on a pattern match, a quoted right-hand side pushes the
unquoted string, a numeric right-hand side pushes the coerced number;
any other right-hand side — and any source not matching the pattern —
leaves the builder unchanged.
-/
def jsWhere (b : QueryBuilder) (fnStr : String) : QueryBuilder :=
  match regexFindWhere fnStr.data with
  | none => b
  | some (fieldCs, capCs) =>
    let field : String := ⟨fieldCs⟩
    let value := jsTrim ⟨capCs⟩
    if isQuoted value then
      { b with whereConditions := b.whereConditions ++ [field ++ " = ?"]
               whereParams := b.whereParams ++ [Value.vStr ((value.drop 1).dropRight 1)] }
    else if jsIsNumericString value then
      { b with whereConditions := b.whereConditions ++ [field ++ " = ?"]
               whereParams := b.whereParams ++ [Value.vNumOfString value] }
    else b

/-! ### Decomposition of the compiled SQL into ordered clause segments -/

lemma catSp_nil : catSp [] = "" := rfl

lemma catSp_cons (x : String) (l : List String) :
    catSp (x :: l) = " " ++ x ++ catSp l := rfl

lemma catSp_singleton (x : String) : catSp [x] = " " ++ x := by
  rw [catSp_cons, catSp_nil, String.append_empty]

lemma joinSep_space_cons (x : String) (l : List String) :
    joinSep " " (x :: l) = x ++ catSp l := by
  induction l generalizing x with
  | nil => simp [joinSep, catSp]
  | cons y ys ih =>
    have h1 : joinSep " " (x :: y :: ys) = x ++ " " ++ joinSep " " (y :: ys) := rfl
    rw [h1, ih y, catSp_cons]
    simp [String.append_assoc]

lemma catSp_append (a b : List String) : catSp (a ++ b) = catSp a ++ catSp b := by
  induction a with
  | nil => simp [catSp]
  | cons x xs ih =>
    rw [List.cons_append, catSp_cons, catSp_cons, ih]
    simp [String.append_assoc]

lemma filterMap_clauseParts (b : QueryBuilder) :
    (QueryBuilder.clauseParts b).filterMap id
      = ("SELECT " ++ b.selectFields ++ " FROM " ++ b.table)
        :: (b.joinClauses
            ++ ((QueryBuilder.whereOpt b).toList ++ (QueryBuilder.groupOpt b).toList
                ++ (QueryBuilder.orderOpt b).toList ++ (QueryBuilder.limitOpt b).toList)) := by
  cases hw : QueryBuilder.whereOpt b <;> cases hg : QueryBuilder.groupOpt b <;>
    cases ho : QueryBuilder.orderOpt b <;> cases hl : QueryBuilder.limitOpt b <;>
    simp [QueryBuilder.clauseParts, hw, hg, ho, hl, List.filterMap_append, List.filterMap_cons]

lemma segWhere_eq_catSp (b : QueryBuilder) :
    segWhere b = catSp (QueryBuilder.whereOpt b).toList := by
  by_cases h : b.whereConditions.isEmpty
  · simp [segWhere, QueryBuilder.whereOpt, h, catSp]
  · simp only [segWhere, QueryBuilder.whereOpt, h, if_neg, Option.toList_some,
      Bool.false_eq_true, if_false, catSp_singleton]
    rw [show (" WHERE " : String) = " " ++ "WHERE " from by decide, String.append_assoc]

lemma segGroup_eq_catSp (b : QueryBuilder) :
    segGroup b = catSp (QueryBuilder.groupOpt b).toList := by
  by_cases h : b.groupByFields.isEmpty
  · simp [segGroup, QueryBuilder.groupOpt, h, catSp]
  · simp only [segGroup, QueryBuilder.groupOpt, h, if_neg, Option.toList_some,
      Bool.false_eq_true, if_false, catSp_singleton]
    rw [show (" GROUP BY " : String) = " " ++ "GROUP BY " from by decide, String.append_assoc]

lemma segOrder_eq_catSp (b : QueryBuilder) :
    segOrder b = catSp (QueryBuilder.orderOpt b).toList := by
  cases hf : b.orderByField with
  | none => simp [segOrder, QueryBuilder.orderOpt, hf, catSp]
  | some f =>
    by_cases h : f = ""
    · simp [segOrder, QueryBuilder.orderOpt, hf, h, catSp]
    · simp only [segOrder, QueryBuilder.orderOpt, hf, h, if_neg, Option.toList_some,
        if_false, catSp_singleton]
      rw [show (" ORDER BY " : String) = " " ++ "ORDER BY " from by decide]
      simp only [String.append_assoc]

lemma segLimit_eq_catSp (b : QueryBuilder) :
    segLimit b = catSp (QueryBuilder.limitOpt b).toList := by
  cases hl : b.limitCount with
  | none => simp [segLimit, QueryBuilder.limitOpt, hl, catSp]
  | some n =>
    simp only [segLimit, QueryBuilder.limitOpt, hl, Option.toList_some, catSp_singleton]
    rw [show (" LIMIT " : String) = " " ++ "LIMIT " from by decide, String.append_assoc]

/-! ### State accumulated by a call sequence -/

lemma applyCalls_cons (b : QueryBuilder) (c : Call) (cs : List Call) :
    applyCalls b (c :: cs) = applyCalls (applyCall b c) cs := rfl

lemma applyCalls_table (b : QueryBuilder) (cs : List Call) :
    (applyCalls b cs).table = b.table := by
  induction cs generalizing b with
  | nil => rfl
  | cons c cs ih =>
    rw [applyCalls_cons, ih]
    cases c <;> rfl

lemma applyCalls_joinClauses (b : QueryBuilder) (cs : List Call) :
    (applyCalls b cs).joinClauses = b.joinClauses ++ cs.flatMap joinFragsOf := by
  induction cs generalizing b with
  | nil => simp [applyCalls]
  | cons c cs ih =>
    rw [applyCalls_cons, ih, List.flatMap_cons]
    cases c <;>
      simp [applyCall, QueryBuilder.select, QueryBuilder.whereField, QueryBuilder.whereRaw,
        QueryBuilder.join, QueryBuilder.leftJoin, QueryBuilder.groupBy, QueryBuilder.orderBy,
        QueryBuilder.limit, joinFragsOf]

lemma applyCalls_whereConditions (b : QueryBuilder) (cs : List Call) :
    (applyCalls b cs).whereConditions = b.whereConditions ++ cs.flatMap filterFragsOf := by
  induction cs generalizing b with
  | nil => simp [applyCalls]
  | cons c cs ih =>
    rw [applyCalls_cons, ih, List.flatMap_cons]
    cases c <;>
      simp [applyCall, QueryBuilder.select, QueryBuilder.whereField, QueryBuilder.whereRaw,
        QueryBuilder.join, QueryBuilder.leftJoin, QueryBuilder.groupBy, QueryBuilder.orderBy,
        QueryBuilder.limit, filterFragsOf]

lemma applyCalls_whereParams (b : QueryBuilder) (cs : List Call) :
    (applyCalls b cs).whereParams = b.whereParams ++ cs.flatMap filterParamsOf := by
  induction cs generalizing b with
  | nil => simp [applyCalls]
  | cons c cs ih =>
    rw [applyCalls_cons, ih, List.flatMap_cons]
    cases c <;>
      simp [applyCall, QueryBuilder.select, QueryBuilder.whereField, QueryBuilder.whereRaw,
        QueryBuilder.join, QueryBuilder.leftJoin, QueryBuilder.groupBy, QueryBuilder.orderBy,
        QueryBuilder.limit, filterParamsOf]

lemma applyCalls_groupByFields (b : QueryBuilder) (cs : List Call)
    (h : ∀ c ∈ cs, Call.isGroup c = false) :
    (applyCalls b cs).groupByFields = b.groupByFields := by
  induction cs generalizing b with
  | nil => rfl
  | cons c cs ih =>
    rw [applyCalls_cons, ih _ (fun c hc => h c (List.mem_cons_of_mem _ hc))]
    have hc := h c (List.mem_cons_self c cs)
    cases c <;> first
      | rfl
      | simp [Call.isGroup] at hc

lemma applyCalls_orderByField (b : QueryBuilder) (cs : List Call)
    (h : ∀ c ∈ cs, Call.isOrder c = false) :
    (applyCalls b cs).orderByField = b.orderByField := by
  induction cs generalizing b with
  | nil => rfl
  | cons c cs ih =>
    rw [applyCalls_cons, ih _ (fun c hc => h c (List.mem_cons_of_mem _ hc))]
    have hc := h c (List.mem_cons_self c cs)
    cases c <;> first
      | rfl
      | simp [Call.isOrder] at hc

lemma applyCalls_limitCount (b : QueryBuilder) (cs : List Call)
    (h : ∀ c ∈ cs, Call.isLimit c = false) :
    (applyCalls b cs).limitCount = b.limitCount := by
  induction cs generalizing b with
  | nil => rfl
  | cons c cs ih =>
    rw [applyCalls_cons, ih _ (fun c hc => h c (List.mem_cons_of_mem _ hc))]
    have hc := h c (List.mem_cons_self c cs)
    cases c <;> first
      | rfl
      | simp [Call.isLimit] at hc

/-! ### Lemmas on filter sequences and substitution -/

lemma applyFilterCalls_cons (b : QueryBuilder) (c : FilterCall) (cs : List FilterCall) :
    applyFilterCalls b (c :: cs) = applyFilterCalls (applyFilterCall b c) cs := rfl

lemma applyFilterCalls_whereConditions (b : QueryBuilder) (cs : List FilterCall) :
    (applyFilterCalls b cs).whereConditions
      = b.whereConditions ++ cs.map FilterCall.frag := by
  induction cs generalizing b with
  | nil => simp [applyFilterCalls]
  | cons c cs ih =>
    rw [applyFilterCalls_cons, ih, List.map_cons]
    cases c <;>
      simp [applyFilterCall, QueryBuilder.whereField, QueryBuilder.whereRaw, FilterCall.frag]

lemma applyFilterCalls_whereParams (b : QueryBuilder) (cs : List FilterCall) :
    (applyFilterCalls b cs).whereParams
      = b.whereParams ++ cs.flatMap FilterCall.params := by
  induction cs generalizing b with
  | nil => simp [applyFilterCalls]
  | cons c cs ih =>
    rw [applyFilterCalls_cons, ih, List.flatMap_cons]
    cases c <;>
      simp [applyFilterCall, QueryBuilder.whereField, QueryBuilder.whereRaw, FilterCall.params]

lemma substChars_no_q (a : List Char) (ps : List Value) (h : a.count '?' = 0) :
    substChars a ps = a := by
  induction a generalizing ps with
  | nil => rfl
  | cons c a ih =>
    have hc : ¬ c = '?' := by
      intro hc
      subst hc
      simp [List.count_cons] at h
    have ha : a.count '?' = 0 := by
      simp [List.count_cons, hc] at h
      simpa using h
    simp [substChars, hc, ih _ ha]

lemma substChars_cons_ne (c : Char) (hc : ¬ c = '?') (l : List Char) (qs : List Value) :
    substChars (c :: l) qs = c :: substChars l qs := by
  cases qs <;> simp [substChars, hc]

lemma substChars_append (a b : List Char) (ps : List Value)
    (h : a.count '?' ≤ ps.length) :
    substChars (a ++ b) ps
      = substChars a (ps.take (a.count '?')) ++ substChars b (ps.drop (a.count '?')) := by
  induction a generalizing ps with
  | nil => simp [substChars]
  | cons c a ih =>
    by_cases hc : c = '?'
    · subst hc
      have hcount : (('?' : Char) :: a).count '?' = a.count '?' + 1 := by
        simp [List.count_cons]
      cases ps with
      | nil =>
        rw [hcount] at h
        exact absurd h (by simp)
      | cons p ps' =>
        have h' : a.count '?' ≤ ps'.length := by
          rw [hcount] at h
          simpa using h
        rw [hcount, List.take_succ_cons, List.drop_succ_cons]
        show (QueryBuilder.renderValue p).data ++ substChars (a ++ b) ps'
            = ((QueryBuilder.renderValue p).data
                ++ substChars a (List.take (a.count '?') ps'))
              ++ substChars b (List.drop (a.count '?') ps')
        rw [ih ps' h', List.append_assoc]
    · have hcount : (c :: a).count '?' = a.count '?' := by
        simp [List.count_cons, hc]
      rw [hcount] at h ⊢
      rw [List.cons_append, substChars_cons_ne c hc, substChars_cons_ne c hc, ih ps h]
      simp

/--
Binding the concatenation `frag1 AND frag2 AND ...` against the full
parameter array, in order, is the same as binding each fragment against
exactly the parameters pushed by its own call — provided every fragment
carries as many placeholders as parameters.  This is the formal sense in
which placeholder order matches parameter insertion order.
-/
lemma subst_joinAnd (l : List (String × List Value))
    (h : ∀ p ∈ l, countQ p.1 = p.2.length) :
    substPlaceholders (joinSep " AND " (l.map Prod.fst)) (l.flatMap Prod.snd)
        = joinSep " AND " (l.map (fun p => substPlaceholders p.1 p.2))
    ∧ countQ (joinSep " AND " (l.map Prod.fst)) = (l.flatMap Prod.snd).length := by
  induction l with
  | nil => exact ⟨rfl, rfl⟩
  | cons p rest ih =>
    have hp : countQ p.1 = p.2.length := h p (List.mem_cons_self p rest)
    have hrest : ∀ q ∈ rest, countQ q.1 = q.2.length :=
      fun q hq => h q (List.mem_cons_of_mem _ hq)
    obtain ⟨ihS, ihC⟩ := ih hrest
    cases rest with
    | nil =>
      constructor
      · simp [joinSep, substPlaceholders]
      · simpa [joinSep, countQ] using hp
    | cons q rest' =>
      have hcons1 : joinSep " AND " ((p :: q :: rest').map Prod.fst)
          = p.1 ++ " AND " ++ joinSep " AND " ((q :: rest').map Prod.fst) := rfl
      have hcons2 : joinSep " AND " ((p :: q :: rest').map (fun r => substPlaceholders r.1 r.2))
          = substPlaceholders p.1 p.2 ++ " AND "
            ++ joinSep " AND " ((q :: rest').map (fun r => substPlaceholders r.1 r.2)) := rfl
      have hflat : (p :: q :: rest').flatMap Prod.snd
          = p.2 ++ (q :: rest').flatMap Prod.snd := rfl
      have hdata : (p.1 ++ " AND " ++ joinSep " AND " ((q :: rest').map Prod.fst)).data
          = p.1.data ++ ((" AND " : String).data
              ++ (joinSep " AND " ((q :: rest').map Prod.fst)).data) := by
        simp [String.data_append]
      have hAndCount : ((" AND " : String).data).count '?' = 0 := by decide
      constructor
      · apply String.ext
        rw [hcons1, hcons2, hflat]
        show substChars (p.1 ++ " AND " ++ joinSep " AND " ((q :: rest').map Prod.fst)).data
              (p.2 ++ (q :: rest').flatMap Prod.snd)
            = (substPlaceholders p.1 p.2 ++ " AND "
                ++ joinSep " AND " ((q :: rest').map (fun r => substPlaceholders r.1 r.2))).data
        rw [hdata]
        rw [substChars_append p.1.data _ _ (by
          rw [show p.1.data.count '?' = countQ p.1 from rfl, hp]
          simp)]
        rw [show p.1.data.count '?' = countQ p.1 from rfl, hp]
        rw [List.take_left, List.drop_left]
        rw [substChars_append (" AND " : String).data _ _ (by rw [hAndCount]; simp)]
        rw [hAndCount, List.take_zero, List.drop_zero]
        rw [substChars_no_q _ _ hAndCount]
        have hJ : substChars (joinSep " AND " ((q :: rest').map Prod.fst)).data
              ((q :: rest').flatMap Prod.snd)
            = (joinSep " AND " ((q :: rest').map (fun r => substPlaceholders r.1 r.2))).data :=
          congrArg String.data ihS
        rw [hJ]
        simp [String.data_append, List.append_assoc, substPlaceholders]
      · rw [hcons1, hflat, countQ]
        rw [hdata]
        rw [List.count_append, List.count_append]
        rw [show p.1.data.count '?' = countQ p.1 from rfl, hp, hAndCount]
        rw [show (joinSep " AND " ((q :: rest').map Prod.fst)).data.count '?'
              = countQ (joinSep " AND " ((q :: rest').map Prod.fst)) from rfl, ihC]
        simp

/--
The compiled SQL of `get()` always decomposes as
`SELECT <cols> FROM <table>` followed (in this fixed order) by the join,
WHERE, GROUP BY, ORDER BY, and LIMIT segments, each segment empty when
its clause is absent.
-/
theorem compileGet_decomp (b : QueryBuilder) :
    QueryBuilder.compileGet b
      = "SELECT " ++ b.selectFields ++ " FROM " ++ b.table
        ++ segJoins b ++ segWhere b ++ segGroup b ++ segOrder b ++ segLimit b := by
  rw [QueryBuilder.compileGet, filterMap_clauseParts, joinSep_space_cons]
  rw [catSp_append, catSp_append, catSp_append, catSp_append]
  rw [segWhere_eq_catSp, segGroup_eq_catSp, segOrder_eq_catSp, segLimit_eq_catSp, segJoins]
  simp [String.append_assoc]

/-! ### Claim C1: placeholder/parameter correspondence -/

/--
C1, counterexample: the claim quantifies over every interleaving of
`filterEquals` and `filterRaw` calls and asserts that the compiled SQL
always contains exactly as many `?` placeholders as the parameter array
has entries.  A single `filterRaw` call whose fragment contains a `?`
but whose parameter list is empty already refutes it: the compiled SQL
has one placeholder while the parameter array has zero entries.
-/
theorem c1_counterexample :
    ((applyFilterCalls (mkBuilder "stories")
        [FilterCall.filterRaw "rating > ?" []]).whereParams).length = 0
    ∧ countQ (QueryBuilder.compileGet
        (applyFilterCalls (mkBuilder "stories")
          [FilterCall.filterRaw "rating > ?" []])) = 1 := by
  constructor
  · decide
  · decide

/--
C1, amended: for every sequence of `filterEquals` calls interleaved with
`filterRaw` calls, *provided each fragment carries exactly as many `?`
placeholders as the parameters it pushes* (automatic for `filterEquals`
with a `?`-free field name, and the documented contract of `filterRaw`),
the WHERE conditions and the parameter array accumulate in call order,
the joined WHERE clause contains exactly as many placeholders as the
parameter array has entries, and binding the whole clause against the
whole array in order binds each fragment to exactly the values its own
call inserted (placeholder order = insertion order).
-/
theorem c1_placeholder_invariant (t : String) (cs : List FilterCall)
    (h : ∀ c ∈ cs, countQ c.frag = c.params.length) :
    (applyFilterCalls (mkBuilder t) cs).whereConditions = cs.map FilterCall.frag
    ∧ (applyFilterCalls (mkBuilder t) cs).whereParams = cs.flatMap FilterCall.params
    ∧ countQ (joinSep " AND " ((applyFilterCalls (mkBuilder t) cs).whereConditions))
        = ((applyFilterCalls (mkBuilder t) cs).whereParams).length
    ∧ substPlaceholders (joinSep " AND " ((applyFilterCalls (mkBuilder t) cs).whereConditions))
        ((applyFilterCalls (mkBuilder t) cs).whereParams)
        = joinSep " AND " (cs.map (fun c => substPlaceholders c.frag c.params)) := by
  have hconds : (applyFilterCalls (mkBuilder t) cs).whereConditions = cs.map FilterCall.frag := by
    rw [applyFilterCalls_whereConditions]
    simp [mkBuilder]
  have hparams : (applyFilterCalls (mkBuilder t) cs).whereParams
      = cs.flatMap FilterCall.params := by
    rw [applyFilterCalls_whereParams]
    simp [mkBuilder]
  have hl : ∀ p ∈ cs.map (fun c => (c.frag, c.params)), countQ p.1 = p.2.length := by
    intro p hp
    obtain ⟨c, hc, rfl⟩ := List.mem_map.mp hp
    exact h c hc
  obtain ⟨hS, hC⟩ := subst_joinAnd (cs.map (fun c => (c.frag, c.params))) hl
  have hfst : (cs.map (fun c => (c.frag, c.params))).map Prod.fst = cs.map FilterCall.frag := by
    simp
  have hsnd : (cs.map (fun c => (c.frag, c.params))).flatMap Prod.snd
      = cs.flatMap FilterCall.params := by
    simp [List.flatMap_map]
  rw [hfst, hsnd] at hS hC
  have hS' : substPlaceholders (joinSep " AND " (cs.map FilterCall.frag))
      (cs.flatMap FilterCall.params)
      = joinSep " AND " (cs.map (fun c => substPlaceholders c.frag c.params)) := by
    simpa [List.map_map] using hS
  refine ⟨hconds, hparams, ?_, ?_⟩
  · rw [hconds, hparams, hC]
  · rw [hconds, hparams, hS']

/--
C1 witness: two `filterEquals` calls around a two-placeholder,
two-parameter `filterRaw` call satisfy the amended invariant.
-/
theorem c1_placeholder_invariant_witness :
    countQ (joinSep " AND "
      ((applyFilterCalls (mkBuilder "stories")
        [FilterCall.filterEquals "user_id" (Value.vInt 7),
         FilterCall.filterRaw "rating > ? AND rating < ?" [Value.vInt 1, Value.vInt 5],
         FilterCall.filterEquals "title" (Value.vStr "a")]).whereConditions))
      = ((applyFilterCalls (mkBuilder "stories")
        [FilterCall.filterEquals "user_id" (Value.vInt 7),
         FilterCall.filterRaw "rating > ? AND rating < ?" [Value.vInt 1, Value.vInt 5],
         FilterCall.filterEquals "title" (Value.vStr "a")]).whereParams).length :=
  (c1_placeholder_invariant "stories"
    [FilterCall.filterEquals "user_id" (Value.vInt 7),
     FilterCall.filterRaw "rating > ? AND rating < ?" [Value.vInt 1, Value.vInt 5],
     FilterCall.filterEquals "title" (Value.vStr "a")] (by decide)).2.2.1

/-! ### Claim C2: fixed clause order of the compiled SQL -/

/--
C2: for every sequence of chain calls, in any invocation order, the SQL
compiled by `get()` decomposes as `SELECT <cols> FROM <table>` followed by
the join, WHERE, GROUP BY, ORDER BY and LIMIT segments in that fixed
order; joins appear in invocation order, filter fragments accumulate in
invocation order and are joined with ` AND `, and each optional segment
is the empty string (omitted entirely) whenever its state was never set.
-/
theorem c2_clause_order (t : String) (cs : List Call) :
    QueryBuilder.compileGet (applyCalls (mkBuilder t) cs)
      = "SELECT " ++ (applyCalls (mkBuilder t) cs).selectFields ++ " FROM " ++ t
        ++ segJoins (applyCalls (mkBuilder t) cs)
        ++ segWhere (applyCalls (mkBuilder t) cs)
        ++ segGroup (applyCalls (mkBuilder t) cs)
        ++ segOrder (applyCalls (mkBuilder t) cs)
        ++ segLimit (applyCalls (mkBuilder t) cs)
    ∧ (applyCalls (mkBuilder t) cs).joinClauses = cs.flatMap joinFragsOf
    ∧ (applyCalls (mkBuilder t) cs).whereConditions = cs.flatMap filterFragsOf
    ∧ segWhere (applyCalls (mkBuilder t) cs)
        = (if cs.flatMap filterFragsOf = [] then ""
           else " WHERE " ++ joinSep " AND " (cs.flatMap filterFragsOf))
    ∧ ((∀ c ∈ cs, Call.isJoin c = false) → segJoins (applyCalls (mkBuilder t) cs) = "")
    ∧ ((∀ c ∈ cs, Call.isFilter c = false) → segWhere (applyCalls (mkBuilder t) cs) = "")
    ∧ ((∀ c ∈ cs, Call.isGroup c = false) → segGroup (applyCalls (mkBuilder t) cs) = "")
    ∧ ((∀ c ∈ cs, Call.isOrder c = false) → segOrder (applyCalls (mkBuilder t) cs) = "")
    ∧ ((∀ c ∈ cs, Call.isLimit c = false) → segLimit (applyCalls (mkBuilder t) cs) = "") := by
  have htable : (applyCalls (mkBuilder t) cs).table = t := by
    rw [applyCalls_table]
    rfl
  have hjoins : (applyCalls (mkBuilder t) cs).joinClauses = cs.flatMap joinFragsOf := by
    rw [applyCalls_joinClauses]
    simp [mkBuilder]
  have hconds : (applyCalls (mkBuilder t) cs).whereConditions = cs.flatMap filterFragsOf := by
    rw [applyCalls_whereConditions]
    simp [mkBuilder]
  refine ⟨?_, hjoins, hconds, ?_, ?_, ?_, ?_, ?_, ?_⟩
  · rw [compileGet_decomp, htable]
  · rw [segWhere, hconds]
    by_cases hE : cs.flatMap filterFragsOf = [] <;> simp [hE]
  · intro hnj
    have : cs.flatMap joinFragsOf = [] := by
      rw [List.flatMap_eq_nil_iff]
      intro c hc
      cases c <;> simp [joinFragsOf] <;> simp [Call.isJoin] at *
      all_goals exact absurd (hnj _ hc) (by simp [Call.isJoin])
    rw [segJoins, hjoins, this, catSp_nil]
  · intro hnf
    have : cs.flatMap filterFragsOf = [] := by
      rw [List.flatMap_eq_nil_iff]
      intro c hc
      cases c <;> simp [filterFragsOf] <;>
        exact absurd (hnf _ hc) (by simp [Call.isFilter])
    rw [segWhere, hconds, this]
    simp
  · intro hng
    have : (applyCalls (mkBuilder t) cs).groupByFields = [] := by
      rw [applyCalls_groupByFields _ _ hng]
      rfl
    rw [segGroup, this]
    simp
  · intro hno
    have : (applyCalls (mkBuilder t) cs).orderByField = none := by
      rw [applyCalls_orderByField _ _ hno]
      rfl
    rw [segOrder, this]
  · intro hnl
    have : (applyCalls (mkBuilder t) cs).limitCount = none := by
      rw [applyCalls_limitCount _ _ hnl]
      rfl
    rw [segLimit, this]

/--
C2 witness: a chain invoked in the order orderBy, filterEquals, join has
an empty GROUP BY segment and a compiled SQL in canonical clause order.
-/
theorem c2_clause_order_witness :
    segGroup (applyCalls (mkBuilder "stories")
      [Call.orderBy "title" "desc", Call.filterEquals "user_id" (Value.vInt 7),
       Call.join "users" "users.id = stories.user_id"]) = "" :=
  (c2_clause_order "stories"
    [Call.orderBy "title" "desc", Call.filterEquals "user_id" (Value.vInt 7),
     Call.join "users" "users.id = stories.user_id"]).2.2.2.2.2.2.1 (by decide)

/-! ### Claims C3-C5: terminal calls -/

/--
C3: `count()` runs a derived query on the same table selecting
`COUNT(*) as count` that reuses exactly the filter fragments, their
parameters and the join clauses — but not the select list, group-by,
order-by or limit — and returns the driver-reported count: `k` when the
COUNT row reports `k` matches (in particular 0), and 0 for an empty
result set.
-/
theorem c3_count_derived (exec : Exec) (b : QueryBuilder) :
    (QueryBuilder.countBuilder b).selectFields = "COUNT(*) as count"
    ∧ (QueryBuilder.countBuilder b).table = b.table
    ∧ (QueryBuilder.countBuilder b).whereConditions = b.whereConditions
    ∧ (QueryBuilder.countBuilder b).whereParams = b.whereParams
    ∧ (QueryBuilder.countBuilder b).joinClauses = b.joinClauses
    ∧ (QueryBuilder.countBuilder b).groupByFields = []
    ∧ (QueryBuilder.countBuilder b).orderByField = none
    ∧ (QueryBuilder.countBuilder b).limitCount = none
    ∧ (∀ k : Int,
        exec (QueryBuilder.compileGet (QueryBuilder.countBuilder b)) b.whereParams
            = Except.ok [[("count", Value.vInt k)]]
        → QueryBuilder.countRun exec b = Except.ok (Value.vInt k))
    ∧ (exec (QueryBuilder.compileGet (QueryBuilder.countBuilder b)) b.whereParams
            = Except.ok []
        → QueryBuilder.countRun exec b = Except.ok (Value.vInt 0)) := by
  refine ⟨rfl, rfl, rfl, rfl, rfl, rfl, rfl, rfl, ?_, ?_⟩
  · intro k hk
    unfold QueryBuilder.countRun QueryBuilder.getRun
    rw [show (QueryBuilder.countBuilder b).whereParams = b.whereParams from rfl, hk]
    by_cases hk0 : k = 0 <;> simp [List.lookup, QueryBuilder.isFalsy, hk0]
  · intro hk
    unfold QueryBuilder.countRun QueryBuilder.getRun
    rw [show (QueryBuilder.countBuilder b).whereParams = b.whereParams from rfl, hk]

/--
C3 witness: with a driver reporting a COUNT row of 5 matches, `count()`
on a filtered builder returns 5.
-/
theorem c3_count_derived_witness :
    QueryBuilder.countRun (fun _ _ => Except.ok [[("count", Value.vInt 5)]])
      ((mkBuilder "stories").whereField "user_id" (Value.vInt 7))
      = Except.ok (Value.vInt 5) :=
  (c3_count_derived (fun _ _ => Except.ok [[("count", Value.vInt 5)]])
    ((mkBuilder "stories").whereField "user_id" (Value.vInt 7))).2.2.2.2.2.2.2.2.1 5 rfl

/--
C4: `first()` is exactly `limit(1)` followed by `get()`, returning the
head of the row list: `some` of the first row when one matched, the
absent marker `none` (not an error and not an empty list — the result
type is an optional row) when the row list is empty.  The second
conjunct records that the limit really is staged as 1.
-/
theorem c4_first_equiv (exec : Exec) (b : QueryBuilder) :
    QueryBuilder.firstRun exec b
      = (QueryBuilder.getRun exec (b.limit 1)).map (fun rows => rows.head?)
    ∧ (b.limit 1).limitCount = some 1 := by
  constructor
  · unfold QueryBuilder.firstRun
    cases h : QueryBuilder.getRun exec (b.limit 1) with
    | ok rows => cases rows <;> simp [Except.map]
    | error e => simp [Except.map]
  · rfl

/--
C5: `insertAndGet()` throws `No data provided to insert` when no payload
was staged via `insert(data)`; with a staged payload it executes the
compiled INSERT over the payload values and returns a record whose `id`
field is exactly the driver-reported generated key `result.insertId`.
-/
theorem c5_insert_and_get (execI : ExecInsert) (b : QueryBuilder) :
    (b.insertData = none →
      QueryBuilder.insertAndGetRun execI b
        = Except.error (JsError.plain "No data provided to insert"))
    ∧ (∀ data info, b.insertData = some data →
        execI (QueryBuilder.insertSql b.table data) (data.map Prod.snd) = Except.ok info →
        QueryBuilder.insertAndGetRun execI b
          = Except.ok [("id", Value.vInt info.insertId)]) := by
  constructor
  · intro h
    unfold QueryBuilder.insertAndGetRun
    rw [h]
  · intro data info hd hexec
    unfold QueryBuilder.insertAndGetRun
    rw [hd]
    simp [hexec]

/--
C5 witness: a staged one-column payload with the driver generating key 42
makes `insertAndGet()` return id 42; staging nothing raises.
-/
theorem c5_insert_and_get_witness :
    QueryBuilder.insertAndGetRun (fun _ _ => Except.ok ⟨42⟩)
      ((mkBuilder "users").insert [("username", Value.vStr "ada")])
      = Except.ok [("id", Value.vInt 42)]
    ∧ QueryBuilder.insertAndGetRun (fun _ _ => Except.ok ⟨42⟩) (mkBuilder "users")
      = Except.error (JsError.plain "No data provided to insert") :=
  ⟨(c5_insert_and_get (fun _ _ => Except.ok ⟨42⟩)
      ((mkBuilder "users").insert [("username", Value.vStr "ada")])).2
      [("username", Value.vStr "ada")] ⟨42⟩ rfl rfl,
   (c5_insert_and_get (fun _ _ => Except.ok ⟨42⟩) (mkBuilder "users")).1 rfl⟩

/--
C8: a `query()` call made while the connection is disconnected first
re-establishes the connection and only then issues the statement — the
trace is exactly reconnect-then-issue, with a single issue event (no
retry even when re-establishment fails) — and the caller observes
exactly the driver's outcome for the statement on the re-established
handle (rows or a rejected structured error, never a silent no-op).
-/
theorem c8_reconnect_before_issue (d : Driver) (c : Conn) (sql : String) (ps : List Value)
    (h : c.state = ConnState.disconnected) :
    (queryRun d c sql ps).1 = [DbEv.reconnect, DbEv.issue sql ps]
    ∧ (queryRun d c sql ps).2.2 = ensureConnection d
    ∧ (queryRun d c sql ps).2.1 = d.runStmt (ensureConnection d).state sql ps
    ∧ ((queryRun d c sql ps).1.count (DbEv.issue sql ps)) = 1 := by
  refine ⟨?_, ?_, ?_, ?_⟩ <;> simp [queryRun, h]

/--
C8 witness: a disconnected handle with a successfully reconnecting
driver produces the reconnect-then-issue trace.
-/
theorem c8_reconnect_before_issue_witness :
    (queryRun ⟨true, fun _ _ _ => Except.ok []⟩ ⟨ConnState.disconnected⟩ "SELECT 1" []).1
      = [DbEv.reconnect, DbEv.issue "SELECT 1" []] :=
  (c8_reconnect_before_issue ⟨true, fun _ _ _ => Except.ok []⟩ ⟨ConnState.disconnected⟩
    "SELECT 1" [] rfl).1

/-! ### Claim C6: explicit route maps -/

lemma explicitRoutes_wf (ex : List (String × Handler)) (entries : List (String × HVal))
    (h : ∀ e ∈ entries, wellFormedKey e.1 = true) :
    explicitRoutes ex entries
      = Except.ok (entries.map fun e =>
          { method := keyMethod e.1, path := keyPath e.1, chain := resolveChain ex e.2 }) := by
  induction entries with
  | nil => rfl
  | cons e rest ih =>
    obtain ⟨k, v⟩ := e
    have hk : wellFormedKey k = true := h ⟨k, v⟩ (List.mem_cons_self _ _)
    have ihr := ih (fun e he => h e (List.mem_cons_of_mem _ he))
    have hreg : registerEntry ex k v
        = Except.ok { method := keyMethod k, path := keyPath k, chain := resolveChain ex v } := by
      cases hsp : splitKey k with
      | nil =>
        simp only [wellFormedKey, hsp] at hk
        exact absurd hk (by decide)
      | cons mth rest' =>
        cases rest' with
        | nil =>
          simp only [wellFormedKey, hsp] at hk
          exact absurd hk (by decide)
        | cons p rest'' =>
          cases rest'' with
          | nil =>
            simp only [wellFormedKey, hsp] at hk
            have hv : jsToLower mth ∈ validVerbs := of_decide_eq_true hk
            simp [registerEntry, hsp, hv, keyMethod, keyPath]
          | cons q rest''' =>
            simp only [wellFormedKey, hsp] at hk
            exact absurd hk (by decide)
    simp only [explicitRoutes, hreg, ihr, List.map_cons]

/--
C6, counterexample: the claim asserts that a route-map key without a
method token defaults to GET and that chain entries resolving to nothing
are dropped.  On the module with no exports and the route map
`{ "/foo": "missing" }` the code instead takes `"/foo"` itself as the
method — `router["/foo"]` is not a function, so registration throws and
no `GET /foo` route exists — and the unresolvable string `"missing"` is
kept in the chain (`controller[h] || h` falls back to the string, which
is truthy), not dropped.
-/
theorem c6_counterexample :
    explicitRoutes [] [("/foo", HVal.one (HItem.str "missing"))]
      = Except.error "TypeError: router./foo is not a function"
    ∧ resolveChain [] (HVal.one (HItem.str "missing")) = [RHandler.str "missing"] := by
  constructor
  · rfl
  · rfl

/--
C6, amended: entries of an explicit route map are processed in
declaration order.  Each key is split on spaces; the first token,
lowercased, is the method and the second is the path — there is no
effective GET default: the `= 'get'` destructuring default is dead code
because `split` never produces `undefined`, so a key with its method
token omitted yields its path as the method and registration throws.
For keys of the shape `"<VERB> <path>"` every entry registers, with the
chain flattened in order; string entries naming an export resolve to
that export; a non-empty string naming no export is *kept* in the chain
as a string; falsy entries are dropped.
-/
theorem c6_route_map (ex : List (String × Handler)) (entries : List (String × HVal))
    (h : ∀ e ∈ entries, wellFormedKey e.1 = true) :
    explicitRoutes ex entries
      = Except.ok (entries.map fun e =>
          { method := keyMethod e.1, path := keyPath e.1, chain := resolveChain ex e.2 })
    ∧ (∀ s hh, lookupFn s ex = some hh
        → resolveItem ex (HItem.str s) = some (RHandler.fn hh))
    ∧ (∀ s, s ≠ "" → lookupFn s ex = none
        → resolveItem ex (HItem.str s) = some (RHandler.str s))
    ∧ resolveItem ex HItem.nul = none
    ∧ (∀ (k : String) (v : HVal) (mth : String), splitKey k = [mth]
        → ∃ msg, registerEntry ex k v = Except.error msg) := by
  refine ⟨explicitRoutes_wf ex entries h, ?_, ?_, rfl, ?_⟩
  · intro s hh hl
    simp [resolveItem, hl]
  · intro s hs hl
    simp [resolveItem, hl, hs]
  · intro k v mth hsp
    by_cases hv : jsToLower mth ∈ validVerbs
    · refine ⟨"TypeError: missing route path in key " ++ k, ?_⟩
      simp [registerEntry, hsp, hv]
    · refine ⟨"TypeError: router." ++ jsToLower mth ++ " is not a function", ?_⟩
      simp [registerEntry, hsp, hv]

/--
C6 witness: the `api-auth` route map registers its two POST routes in
order, with string chains resolved against the module's own exports.
-/
theorem c6_route_map_witness :
    explicitRoutes apiAuthExports
      [("POST /login", HVal.arr [HItem.str "validateLogin", HItem.str "login"]),
       ("POST /logout", HVal.one (HItem.str "logout"))]
      = Except.ok
        [{ method := "post", path := "/login", chain := [RHandler.fn ⟨0⟩, RHandler.fn ⟨1⟩] },
         { method := "post", path := "/logout", chain := [RHandler.fn ⟨2⟩] }] :=
  ((c6_route_map apiAuthExports
      [("POST /login", HVal.arr [HItem.str "validateLogin", HItem.str "login"]),
       ("POST /logout", HVal.one (HItem.str "logout"))] (by decide)).1).trans (by rfl)

/-! ### Lemmas on the convention-mode route table -/

lemma str_append_cancel {a s t : String} (h : a ++ s = a ++ t) : s = t := by
  have h2 : a.data ++ s.data = a.data ++ t.data := by
    have h3 := congrArg String.data h
    simpa [String.data_append] using h3
  exact String.ext (List.append_cancel_left h2)

lemma slash_ne_slash_append {f : String} (hf : f ≠ "") : ("/" : String) ≠ "/" ++ f := by
  intro h
  apply hf
  have h2 : "/" ++ "" = "/" ++ f := by
    rw [String.append_empty]
    exact h
  exact (str_append_cancel h2).symm

lemma lookupFn_mem {s : String} {hh : Handler} {l : List (String × Handler)}
    (h : lookupFn s l = some hh) : (s, hh) ∈ l := by
  induction l with
  | nil => simp [lookupFn] at h
  | cons p rest ih =>
    obtain ⟨k, h0⟩ := p
    by_cases hk : k = s
    · subst hk
      simp [lookupFn] at h
      subst h
      exact List.mem_cons_self _ _
    · simp [lookupFn, hk] at h
      exact List.mem_cons_of_mem _ (ih h)

lemma pathCount_any_false {p : String} {acc : List (String × CHandler)}
    (h : pathCount p acc = 0) : (acc.any fun r => r.1 == p) = false := by
  rw [List.any_eq_false]
  rw [pathCount, List.countP_eq_zero] at h
  exact fun r hr => by simpa using h r hr

lemma mem_foldl_addViewRoute (name : String) (subs : List String)
    (acc : List (String × CHandler)) (r : String × CHandler) (hr : r ∈ acc) :
    r ∈ subs.foldl (addViewRoute name) acc := by
  induction subs generalizing acc with
  | nil => exact hr
  | cons s subs ih =>
    apply ih
    rw [addViewRoute]
    by_cases hA : (acc.any fun q => q.1 == "/" ++ s) = true
    · simp [hA, hr]
    · simp only [Bool.not_eq_true] at hA
      simp only [hA, Bool.false_eq_true, if_false]
      exact List.mem_append_left _ hr

lemma pathCount_addViewRoute_ne (name s p : String) (acc : List (String × CHandler))
    (hne : ("/" ++ s : String) ≠ p) :
    pathCount p (addViewRoute name acc s) = pathCount p acc := by
  rw [addViewRoute]
  by_cases hA : (acc.any fun q => q.1 == "/" ++ s) = true
  · simp [hA]
  · simp only [Bool.not_eq_true] at hA
    simp only [hA, Bool.false_eq_true, if_false]
    rw [pathCount, pathCount, List.countP_append]
    simp [hne]

lemma pathCount_foldl_notmem (name : String) (subs : List String)
    (acc : List (String × CHandler)) (t : String) (ht : t ∉ subs) :
    pathCount ("/" ++ t) (subs.foldl (addViewRoute name) acc) = pathCount ("/" ++ t) acc := by
  induction subs generalizing acc with
  | nil => rfl
  | cons s subs ih =>
    have hst : s ≠ t := fun he => ht (he ▸ List.mem_cons_self s subs)
    have hne : ("/" ++ s : String) ≠ "/" ++ t := fun he => hst (str_append_cancel he)
    rw [List.foldl_cons, ih _ (fun hmem => ht (List.mem_cons_of_mem _ hmem)),
      pathCount_addViewRoute_ne name s _ acc hne]

lemma pathCount_foldl_present (name : String) (subs : List String)
    (acc : List (String × CHandler)) (p : String) (hp : pathCount p acc ≠ 0) :
    pathCount p (subs.foldl (addViewRoute name) acc) = pathCount p acc := by
  induction subs generalizing acc with
  | nil => rfl
  | cons s subs ih =>
    have hstep : pathCount p (addViewRoute name acc s) = pathCount p acc := by
      by_cases heq : ("/" ++ s : String) = p
      · subst heq
        have hA : (acc.any fun q => q.1 == "/" ++ s) = true := by
          rw [List.any_eq_true]
          obtain ⟨r, hr, hp2⟩ := List.countP_pos_iff.mp (Nat.pos_of_ne_zero hp)
          exact ⟨r, hr, hp2⟩
        rw [addViewRoute]
        simp [hA]
      · exact pathCount_addViewRoute_ne name s p acc heq
    rw [List.foldl_cons, ih _ (by rw [hstep]; exact hp), hstep]

lemma pathCount_foldl_adds (name : String) (subs : List String)
    (acc : List (String × CHandler)) (t : String) (hnd : subs.Nodup) (ht : t ∈ subs)
    (h0 : pathCount ("/" ++ t) acc = 0) :
    pathCount ("/" ++ t) (subs.foldl (addViewRoute name) acc) = 1
    ∧ ("/" ++ t, CHandler.render (name ++ "/" ++ t)) ∈ subs.foldl (addViewRoute name) acc := by
  induction subs generalizing acc with
  | nil => simp at ht
  | cons s subs ih =>
    rw [List.nodup_cons] at hnd
    obtain ⟨hs_not, hnd'⟩ := hnd
    rw [List.foldl_cons]
    by_cases hts : t = s
    · subst hts
      have hA := pathCount_any_false h0
      have hstep : addViewRoute name acc t
          = acc ++ [("/" ++ t, CHandler.render (name ++ "/" ++ t))] := by
        rw [addViewRoute]
        simp [hA]
      rw [hstep]
      have hcnt : pathCount ("/" ++ t)
          (acc ++ [("/" ++ t, CHandler.render (name ++ "/" ++ t))]) = 1 := by
        rw [pathCount, List.countP_append]
        rw [pathCount] at h0
        simp [h0]
      refine ⟨?_, ?_⟩
      · rw [pathCount_foldl_notmem name subs _ t hs_not]
        exact hcnt
      · exact mem_foldl_addViewRoute name subs _ _ (by simp)
    · have hne : ("/" ++ s : String) ≠ "/" ++ t :=
        fun he => hts (str_append_cancel he).symm
      have ht' : t ∈ subs := by
        rcases List.mem_cons.mp ht with h1 | h2
        · exact absurd h1 hts
        · exact h2
      have h0' : pathCount ("/" ++ t) (addViewRoute name acc s) = 0 := by
        rw [pathCount_addViewRoute_ne name s _ acc hne]
        exact h0
      exact ih _ hnd' ht' h0'

lemma pathCount_indexRoutes (m : ConvController) (p : String) (hne : p ≠ "/") :
    pathCount p (indexRoutes m) = 0 := by
  rw [indexRoutes]
  cases lookupFn "index" m.fnExports with
  | some h => simp [pathCount, Ne.symm hne]
  | none =>
    cases m.viewFiles with
    | none => rfl
    | some files =>
      by_cases hmem : "index.ejs" ∈ files
      · simp [hmem, pathCount, Ne.symm hne]
      · simp [hmem, pathCount]

lemma fnRoutesList_count_notmem (l : List (String × Handler)) (t : String)
    (hnot : t ∉ l.map Prod.fst) :
    List.countP (fun r => r.1 == "/" ++ t)
      ((l.filter fun p => p.1 != "index").map fun p => ("/" ++ p.1, CHandler.fn p.2)) = 0 := by
  induction l with
  | nil => rfl
  | cons p rest ih =>
    have hpt : p.1 ≠ t := fun he => hnot (by simp [← he])
    have hnot' : t ∉ rest.map Prod.fst := fun hm => hnot (by simp [hm])
    have hfalse : (("/" ++ p.1 : String) == "/" ++ t) = false :=
      beq_eq_false_iff_ne.mpr fun he => hpt (str_append_cancel he)
    by_cases hpi : (p.1 != "index") = true
    · simp [List.filter_cons, hpi, List.countP_cons, hfalse, ih hnot']
    · simp only [Bool.not_eq_true] at hpi
      simp [List.filter_cons, hpi, ih hnot']

lemma fnRoutesList_count_mem (l : List (String × Handler)) (f : String) (hfn : Handler)
    (hnodup : (l.map Prod.fst).Nodup) (hmem : (f, hfn) ∈ l) (hfne : f ≠ "index") :
    List.countP (fun r => r.1 == "/" ++ f)
      ((l.filter fun p => p.1 != "index").map fun p => ("/" ++ p.1, CHandler.fn p.2)) = 1 := by
  induction l with
  | nil => simp at hmem
  | cons p rest ih =>
    rw [List.map_cons, List.nodup_cons] at hnodup
    obtain ⟨hp_not, hnd'⟩ := hnodup
    rcases List.mem_cons.mp hmem with heq | hmemr
    · rw [← heq] at hp_not ⊢
      have hpi : ((f, hfn).1 != "index") = true := by simpa using hfne
      simp [List.filter_cons, hpi, List.countP_cons,
        fnRoutesList_count_notmem rest f hp_not]
    · have hf_in : f ∈ rest.map Prod.fst := List.mem_map.mpr ⟨(f, hfn), hmemr, rfl⟩
      have hpf : p.1 ≠ f := fun he => hp_not (he ▸ hf_in)
      have hfalse : (("/" ++ p.1 : String) == "/" ++ f) = false :=
        beq_eq_false_iff_ne.mpr fun he => hpf (str_append_cancel he)
      by_cases hpi : (p.1 != "index") = true
      · simp [List.filter_cons, hpi, List.countP_cons, hfalse, ih hnd' hmemr]
      · simp only [Bool.not_eq_true] at hpi
        simp [List.filter_cons, hpi, ih hnd' hmemr]

lemma pathCount_fnRoutes_mem (m : ConvController) (f : String) (hfn : Handler)
    (hnodup : (m.fnExports.map Prod.fst).Nodup)
    (hmem : (f, hfn) ∈ m.fnExports) (hfne : f ≠ "index") :
    pathCount ("/" ++ f) (fnRoutes m) = 1 :=
  fnRoutesList_count_mem m.fnExports f hfn hnodup hmem hfne

lemma pathCount_fnRoutes_notmem (m : ConvController) (t : String)
    (hnot : t ∉ m.fnExports.map Prod.fst) :
    pathCount ("/" ++ t) (fnRoutes m) = 0 :=
  fnRoutesList_count_notmem m.fnExports t hnot

/-! ### Claim C7: functions win over same-named view templates -/

/--
C7: in convention mode on a non-API module, an exported function `f`
(not `index`, with distinct export names and distinct template-derived
sub-route names) that also has a view template named `f` yields exactly
one route at path `/f`, whose handler is the exported function — the
template is deduplicated away, so no render route shadows or duplicates
it — and every remaining template without a same-named export gets
exactly one generated render-only route.
-/
theorem c7_function_wins (m : ConvController) (f : String) (hfn : Handler)
    (files : List String)
    (hApi : m.isApi = false)
    (hview : m.viewFiles = some files)
    (hmem : (f, hfn) ∈ m.fnExports)
    (hfne : f ≠ "index") (hfnil : f ≠ "")
    (hnodup : (m.fnExports.map Prod.fst).Nodup)
    (hsubs : (viewSubs files).Nodup)
    (_htmpl : f ∈ files.map stripExt) :
    pathCount ("/" ++ f) (conventionRoutes m) = 1
    ∧ ("/" ++ f, CHandler.fn hfn) ∈ conventionRoutes m
    ∧ (∀ t ∈ viewSubs files, t ∉ m.fnExports.map Prod.fst → t ≠ "" →
        pathCount ("/" ++ t) (conventionRoutes m) = 1
        ∧ ("/" ++ t, CHandler.render (m.name ++ "/" ++ t)) ∈ conventionRoutes m) := by
  have hconv : conventionRoutes m
      = (viewSubs files).foldl (addViewRoute m.name) (indexRoutes m ++ fnRoutes m) := by
    simp [conventionRoutes, hApi, hview]
  have hidx : pathCount ("/" ++ f) (indexRoutes m) = 0 :=
    pathCount_indexRoutes m _ (Ne.symm (slash_ne_slash_append hfnil))
  have hfn1 : pathCount ("/" ++ f) (fnRoutes m) = 1 :=
    pathCount_fnRoutes_mem m f hfn hnodup hmem hfne
  have hbase : pathCount ("/" ++ f) (indexRoutes m ++ fnRoutes m) = 1 := by
    rw [pathCount, List.countP_append]
    rw [pathCount] at hidx hfn1
    omega
  have hmem_fn : ("/" ++ f, CHandler.fn hfn) ∈ fnRoutes m := by
    rw [fnRoutes]
    exact List.mem_map.mpr ⟨(f, hfn), List.mem_filter.mpr ⟨hmem, by simp [hfne]⟩, rfl⟩
  refine ⟨?_, ?_, ?_⟩
  · rw [hconv, pathCount_foldl_present _ _ _ _ (by rw [hbase]; exact one_ne_zero), hbase]
  · rw [hconv]
    exact mem_foldl_addViewRoute _ _ _ _ (List.mem_append_right _ hmem_fn)
  · intro t htv htn htne
    have hidx0 : pathCount ("/" ++ t) (indexRoutes m) = 0 :=
      pathCount_indexRoutes m _ (Ne.symm (slash_ne_slash_append htne))
    have hfn0 : pathCount ("/" ++ t) (fnRoutes m) = 0 :=
      pathCount_fnRoutes_notmem m t htn
    have hb0 : pathCount ("/" ++ t) (indexRoutes m ++ fnRoutes m) = 0 := by
      rw [pathCount, List.countP_append]
      rw [pathCount] at hidx0 hfn0
      omega
    obtain ⟨hc, hm⟩ :=
      pathCount_foldl_adds m.name (viewSubs files) (indexRoutes m ++ fnRoutes m) t hsubs htv hb0
    exact ⟨by rw [hconv]; exact hc, by rw [hconv]; exact hm⟩

/--
C7 witness: the scenario of §8 of the specification — a non-API module
`story` exporting `edit` with templates `index.ejs`, `edit.ejs`,
`extra.ejs` — has exactly one `/edit` route, carried by the function.
-/
theorem c7_function_wins_witness :
    pathCount ("/" ++ "edit")
      (conventionRoutes
        { name := "story", isApi := false, fnExports := [("edit", ⟨3⟩)],
          viewFiles := some ["index.ejs", "edit.ejs", "extra.ejs"] }) = 1
    ∧ ("/" ++ "edit", CHandler.fn ⟨3⟩)
        ∈ conventionRoutes
          { name := "story", isApi := false, fnExports := [("edit", ⟨3⟩)],
            viewFiles := some ["index.ejs", "edit.ejs", "extra.ejs"] } :=
  ⟨(c7_function_wins
      { name := "story", isApi := false, fnExports := [("edit", ⟨3⟩)],
        viewFiles := some ["index.ejs", "edit.ejs", "extra.ejs"] }
      "edit" ⟨3⟩ ["index.ejs", "edit.ejs", "extra.ejs"]
      rfl rfl (by decide) (by decide) (by decide) (by decide) (by decide) (by decide)).1,
   (c7_function_wins
      { name := "story", isApi := false, fnExports := [("edit", ⟨3⟩)],
        viewFiles := some ["index.ejs", "edit.ejs", "extra.ejs"] }
      "edit" ⟨3⟩ ["index.ejs", "edit.ejs", "extra.ejs"]
      rfl rfl (by decide) (by decide) (by decide) (by decide) (by decide) (by decide)).2.1⟩

/-! ### Claim C10: API controllers in convention mode -/

/--
C10, counterexample: the claim asserts that for an API controller
without an explicit route map, templates in its view directory never
produce routes.  But the `index.ejs` fallback for `GET /` (line 37) is
not guarded by `!isApi` — only the sub-route template loop is — so an
API controller with no exports and an `index.ejs` template still gets a
template-produced render route at `/`.
-/
theorem c10_counterexample :
    conventionRoutes
      { name := "api-users", isApi := true, fnExports := [],
        viewFiles := some ["index.ejs"] }
      = [("/", CHandler.render "api-users/index")] := by
  rfl

/--
C10, amended: for an API controller in convention mode the non-index
template loop never runs — the table is exactly the index registration
followed by the function registrations — and every registered route is
either an exported function, or the one `index.ejs` render fallback at
`/`, which fires exactly when the module exports no `index` function and
its view directory holds `index.ejs`.
-/
theorem c10_api_routes (m : ConvController) (h : m.isApi = true) :
    conventionRoutes m = indexRoutes m ++ fnRoutes m
    ∧ (∀ r ∈ conventionRoutes m,
        (∃ k hh, (k, hh) ∈ m.fnExports ∧ r.2 = CHandler.fn hh)
        ∨ (r = ("/", CHandler.render (m.name ++ "/index"))
           ∧ lookupFn "index" m.fnExports = none
           ∧ ∃ files, m.viewFiles = some files ∧ "index.ejs" ∈ files)) := by
  have hconv : conventionRoutes m = indexRoutes m ++ fnRoutes m := by
    simp [conventionRoutes, h]
  refine ⟨hconv, ?_⟩
  intro r hr
  rw [hconv] at hr
  rcases List.mem_append.mp hr with hidx | hfn
  · rw [indexRoutes] at hidx
    cases hlk : lookupFn "index" m.fnExports with
    | some hh =>
      rw [hlk] at hidx
      simp at hidx
      subst hidx
      exact Or.inl ⟨"index", hh, lookupFn_mem hlk, rfl⟩
    | none =>
      rw [hlk] at hidx
      cases hv : m.viewFiles with
      | none =>
        rw [hv] at hidx
        simp at hidx
      | some files =>
        rw [hv] at hidx
        by_cases hm : "index.ejs" ∈ files
        · simp [hm] at hidx
          subst hidx
          exact Or.inr ⟨rfl, rfl, files, rfl, hm⟩
        · simp [hm] at hidx
  · rw [fnRoutes] at hfn
    obtain ⟨p, hp, hr2⟩ := List.mem_map.mp hfn
    exact Or.inl ⟨p.1, p.2, List.mem_of_mem_filter hp, by rw [← hr2]⟩

/--
C10 witness: the API controller `api-search` exporting one function and
owning a non-index template `results.ejs` registers only the function
route — the template produces nothing.
-/
theorem c10_api_routes_witness :
    conventionRoutes
      { name := "api-search", isApi := true, fnExports := [("search", ⟨5⟩)],
        viewFiles := some ["results.ejs"] }
      = [("/search", CHandler.fn ⟨5⟩)] :=
  ((c10_api_routes
      { name := "api-search", isApi := true, fnExports := [("search", ⟨5⟩)],
        viewFiles := some ["results.ejs"] } rfl).1).trans (by rfl)

/-! ### Claim C9: the silent-skip behaviour of `where(fn)` -/

/--
C9, counterexample: the claim asserts that every predicate whose
right-hand side is neither a quoted string literal nor a numeric literal
— "for example a variable reference" — leaves the builder unchanged.
The variable reference `Infinity` refutes it: `isNaN('Infinity')` is
false, so `m => m.x == Infinity` adds the filter `x = ?` with the coerced
number `Number('Infinity')` as its parameter.
-/
theorem c9_counterexample :
    (jsWhere (mkBuilder "users") "m => m.x == Infinity").whereConditions = ["x = ?"]
    ∧ (jsWhere (mkBuilder "users") "m => m.x == Infinity").whereParams
        = [Value.vNumOfString "Infinity"] := by
  constructor
  · rfl
  · rfl

/--
C9, amended: `where(fn)` returns the builder unchanged — whereupon a
following `get()` compiles an unfiltered `SELECT * FROM <table>` over
the whole table — whenever the stringified function does not match the
pattern `m => m.field == value`, and whenever it matches but the trimmed
right-hand side is neither quoted nor accepted by JS numeric-string
coercion.  (Coercion accepts more than numeric literals: the empty
string, `Infinity`, and hex/octal/binary forms also produce a filter.)
-/
theorem c9_where_skips (b : QueryBuilder) (fnStr : String) :
    (regexFindWhere fnStr.data = none → jsWhere b fnStr = b)
    ∧ (∀ fieldCs capCs, regexFindWhere fnStr.data = some (fieldCs, capCs) →
        isQuoted (jsTrim ⟨capCs⟩) = false →
        jsIsNumericString (jsTrim ⟨capCs⟩) = false →
        jsWhere b fnStr = b)
    ∧ (∀ t : String, regexFindWhere fnStr.data = none →
        QueryBuilder.compileGet (jsWhere (mkBuilder t) fnStr)
          = "SELECT * FROM " ++ t) := by
  refine ⟨?_, ?_, ?_⟩
  · intro h
    simp [jsWhere, h]
  · intro fieldCs capCs h hq hn
    simp [jsWhere, h, hq, hn]
  · intro t h
    have hw : jsWhere (mkBuilder t) fnStr = mkBuilder t := by
      simp [jsWhere, h]
    rw [hw, compileGet_decomp,
      show ("SELECT * FROM " : String) = "SELECT " ++ "*" ++ " FROM " from by decide]
    show "SELECT " ++ "*" ++ " FROM " ++ t ++ "" ++ "" ++ "" ++ "" ++ ""
        = "SELECT " ++ "*" ++ " FROM " ++ t
    simp only [String.append_empty]

/--
C9 witness: the variable right-hand side `userId` and the
parenthesized-parameter source `(m) => m.id == 5` (which the pattern
does not match) both leave the builder untouched, and the compiled query
is then the unfiltered full-table SELECT.
-/
theorem c9_where_skips_witness :
    jsWhere (mkBuilder "users") "m => m.user_id == userId" = mkBuilder "users"
    ∧ jsWhere (mkBuilder "users") "(m) => m.id == 5" = mkBuilder "users"
    ∧ QueryBuilder.compileGet (jsWhere (mkBuilder "users") "(m) => m.id == 5")
        = "SELECT * FROM " ++ "users" :=
  ⟨(c9_where_skips (mkBuilder "users") "m => m.user_id == userId").2.1
      ("user_id".data) ("userId".data) rfl rfl rfl,
   (c9_where_skips (mkBuilder "users") "(m) => m.id == 5").1 rfl,
   (c9_where_skips (mkBuilder "users") "(m) => m.id == 5").2.2 "users" rfl⟩

end DbWeb

